import Mathlib

/-!
Shallow embedding of the metadb data-access layer (src/metadb/data.py,
src/metadb/db.py) and of the CSV export tool (src/dump_unprocessed.py).

Tables of the backing store are modelled as lists of rows and each SQL
statement becomes the corresponding list operation.  Timestamps are
naturals: the code only ever compares `last_updated` values, so any
linearly ordered type is a faithful model of the datetime values.
Generated ids (the SQL sequences behind `RETURNING id`) are modelled by a
single fresh-id counter on the store.  The `token` table and the token
operations are omitted: they touch no table used by any other operation.
-/

namespace Metadb

abbrev Mbid := String
abbrev Timestamp := Nat

/-- Row of the `recording_meta` table (also the shape of the dictionary
accepted by `_add_recording_meta`). -/
structure RecordingMetaRow where
  mbid : Mbid
  name : String
  artist_credit : String
  last_updated : Timestamp
deriving DecidableEq, Repr

/-- Row of the `release_group_meta` table (also the shape of the dictionary
accepted by `_add_release_group_meta`). -/
structure ReleaseGroupMetaRow where
  mbid : Mbid
  name : String
  artist_credit : String
  first_release_date : String
  last_updated : Timestamp
deriving DecidableEq, Repr

/-- Row of the `item` table. -/
structure ItemRow where
  id : Nat
  scraper_id : Nat
  mbid : Mbid
deriving DecidableEq, Repr

/-- Row of the `scraper` table. -/
structure ScraperRow where
  id : Nat
  source_id : Nat
  module : String
  mb_type : String
  version : Nat
  description : String
deriving DecidableEq, Repr

/-- Row of the `source` table. -/
structure SourceRow where
  id : Nat
  name : String
deriving DecidableEq, Repr

/-- The backing store: one list per table, plus a fresh-id counter standing
for the id sequences consumed by `RETURNING id`. -/
structure DB where
  recording : List Mbid
  recording_redirect : List (Mbid × Mbid)
  recording_meta : List RecordingMetaRow
  release_group : List Mbid
  release_group_meta : List ReleaseGroupMetaRow
  recording_release_group : List (Mbid × Mbid)
  item : List ItemRow
  item_data : List (Nat × String)
  scraper : List ScraperRow
  source : List SourceRow
  next_id : Nat
deriving DecidableEq, Repr

/-- The store with every table empty. -/
def DB.empty : DB := ⟨[], [], [], [], [], [], [], [], [], [], 0⟩

/-- Embeds `_get_recording_meta`: `SELECT ... FROM recording_meta WHERE
mbid = :mbid` followed by `fetchone()` returns the first matching row. -/
def get_recording_meta (s : DB) (recording_mbid : Mbid) : Option RecordingMetaRow :=
  s.recording_meta.find? (fun r => r.mbid == recording_mbid)

/-- Embeds `_add_recording_meta`: fetch the existing row; if present and its
`last_updated` is not older than the incoming one, return without writing;
if present and older, `UPDATE recording_meta SET name, artist_credit,
last_updated WHERE mbid`; if absent, `INSERT` the new row. -/
def add_recording_meta (s : DB) (recording : RecordingMetaRow) : DB :=
  match get_recording_meta s recording.mbid with
  | some existing =>
    if existing.last_updated ≥ recording.last_updated then s
    else
      { s with recording_meta := s.recording_meta.map (fun r =>
          if r.mbid == recording.mbid then
            { r with name := recording.name
                     artist_credit := recording.artist_credit
                     last_updated := recording.last_updated }
          else r) }
  | none => { s with recording_meta := s.recording_meta ++ [recording] }

/-- Embeds `_get_release_group_meta`. -/
def get_release_group_meta (s : DB) (release_group_mbid : Mbid) :
    Option ReleaseGroupMetaRow :=
  s.release_group_meta.find? (fun r => r.mbid == release_group_mbid)

/-- Embeds `_add_release_group_meta`: same last-write-wins rule as
`add_recording_meta`, except that the insert branch also executes
`INSERT INTO release_group (mbid) VALUES (:mbid)` for the bare identity. -/
def add_release_group_meta (s : DB) (release_group : ReleaseGroupMetaRow) : DB :=
  match get_release_group_meta s release_group.mbid with
  | some existing =>
    if existing.last_updated ≥ release_group.last_updated then s
    else
      { s with release_group_meta := s.release_group_meta.map (fun r =>
          if r.mbid == release_group.mbid then
            { r with name := release_group.name
                     artist_credit := release_group.artist_credit
                     first_release_date := release_group.first_release_date
                     last_updated := release_group.last_updated }
          else r) }
  | none =>
    { s with release_group := s.release_group ++ [release_group.mbid],
             release_group_meta := s.release_group_meta ++ [release_group] }

/-- Embeds `_add_recording_mbids`: for each mbid in order, check whether it
is already in the `recording` table and insert it if not; the list of newly
inserted mbids is returned together with the updated store. -/
def add_recording_mbids (s : DB) : List Mbid → List Mbid × DB
  | [] => ([], s)
  | mbid :: rest =>
    if s.recording.contains mbid then
      add_recording_mbids s rest
    else
      let s' := { s with recording := s.recording ++ [mbid] }
      let (ret, s'') := add_recording_mbids s' rest
      (mbid :: ret, s'')

/-- Embeds `musicbrainz_check_mbid_redirect`: a no-op when the two mbids are
equal or when the exact (mbid, new_mbid) pair is already recorded; otherwise
the target mbid is registered as an identity (if new) and the redirect row
is inserted. -/
def musicbrainz_check_mbid_redirect (s : DB) (query_mbid actual_mbid : Mbid) : DB :=
  if query_mbid == actual_mbid then s
  else if s.recording_redirect.contains (query_mbid, actual_mbid) then s
  else
    let s' := (add_recording_mbids s [actual_mbid]).2
    { s' with recording_redirect := s'.recording_redirect ++ [(query_mbid, actual_mbid)] }

/-- Result row of `get_unprocessed_recordings_for_scraper`. -/
structure UnprocessedRecordingRow where
  mbid : Mbid
  name : String
  artist_credit : String
deriving DecidableEq, Repr

/-- Embeds `get_unprocessed_recordings_for_scraper`: `recording JOIN
recording_meta USING (mbid)` (inner join, possibly several meta rows per
recording in an arbitrary store), then the two `LEFT JOIN ... WHERE ... IS
NULL` anti-joins against `recording_redirect` (on the redirect source mbid)
and against this scraper's `item` rows, plus the optional mbid filter. -/
def get_unprocessed_recordings_for_scraper (s : DB) (scraper : ScraperRow)
    (mbid_filter : Option Mbid) : List UnprocessedRecordingRow :=
  (s.recording.flatMap (fun r =>
      (s.recording_meta.filter (fun m => m.mbid == r)).map
        (fun m => UnprocessedRecordingRow.mk r m.name m.artist_credit))).filter
    (fun row =>
      s.item.all (fun it => !(it.mbid == row.mbid && it.scraper_id == scraper.id)) &&
      s.recording_redirect.all (fun rr => !(rr.1 == row.mbid)) &&
      (match mbid_filter with
       | none => true
       | some q => row.mbid == q))

/-- Result row of `get_unprocessed_release_groups_for_scraper`. -/
structure UnprocessedReleaseGroupRow where
  mbid : Mbid
  name : String
  artist_credit : String
  first_release_date : String
deriving DecidableEq, Repr

/-- Embeds `get_unprocessed_release_groups_for_scraper`: like the recording
variant but carrying `first_release_date` and with no redirect anti-join. -/
def get_unprocessed_release_groups_for_scraper (s : DB) (scraper : ScraperRow)
    (mbid_filter : Option Mbid) : List UnprocessedReleaseGroupRow :=
  (s.release_group.flatMap (fun r =>
      (s.release_group_meta.filter (fun m => m.mbid == r)).map
        (fun m => UnprocessedReleaseGroupRow.mk r m.name m.artist_credit m.first_release_date))).filter
    (fun row =>
      s.item.all (fun it => !(it.mbid == row.mbid && it.scraper_id == scraper.id)) &&
      (match mbid_filter with
       | none => true
       | some q => row.mbid == q))

/-- Embeds `get_recordings_missing_meta`: identity mbids with no
`recording_meta` row and no `recording_redirect` row whose source is the
mbid (both expressed as `LEFT JOIN ... WHERE ... IS NULL` anti-joins). -/
def get_recordings_missing_meta (s : DB) : List Mbid :=
  s.recording.filter (fun r =>
    s.recording_meta.all (fun m => !(m.mbid == r)) &&
    s.recording_redirect.all (fun rr => !(rr.1 == r)))

/-- Embeds `_add_link_recording_release_group`: insert the association pair
only when the exact pair is absent. -/
def add_link_recording_release_group (s : DB)
    (recording_mbid release_group_mbid : Mbid) : DB :=
  if s.recording_release_group.contains (recording_mbid, release_group_mbid) then s
  else
    { s with recording_release_group :=
        s.recording_release_group ++ [(recording_mbid, release_group_mbid)] }

/-- Input of `cache_musicbrainz_metadata`: the recording's own meta fields
plus the values of its `release_group_map`. -/
structure RecordingInput where
  meta : RecordingMetaRow
  release_group_map : List ReleaseGroupMetaRow
deriving Repr

/-- Embeds `cache_musicbrainz_metadata`: reconcile the recording's meta,
then for every release group in the map reconcile its meta and link it to
the recording. -/
def cache_musicbrainz_metadata (s : DB) (recording : RecordingInput) : DB :=
  (recording.release_group_map).foldl
    (fun acc rg =>
      add_link_recording_release_group (add_release_group_meta acc rg)
        recording.meta.mbid rg.mbid)
    (add_recording_meta s recording.meta)

/-- Embeds `add_source`: insert the named source and return the row with
its generated id. -/
def add_source (s : DB) (name : String) : DB × SourceRow :=
  let row : SourceRow := ⟨s.next_id, name⟩
  ({ s with source := s.source ++ [row], next_id := s.next_id + 1 }, row)

/-- Embeds `load_source`: `SELECT ... FROM source WHERE name = :name`,
first matching row or none. -/
def load_source (s : DB) (name : String) : Option SourceRow :=
  s.source.find? (fun r => r.name == name)

/-- Embeds `add_scraper`: reject an `mb_type` outside
`[recording, release_group]` by raising (modelled as `Except.error`) before
touching the store; otherwise insert the scraper row and return it. -/
def add_scraper (s : DB) (source : SourceRow) (module mb_type : String)
    (version : Nat) (description : String) : DB × Except String ScraperRow :=
  if mb_type ∉ (["recording", "release_group"] : List String) then
    (s, Except.error "Invalid mb_type. Must be one of [recording, release_group]")
  else
    let row : ScraperRow := ⟨s.next_id, source.id, module, mb_type, version, description⟩
    ({ s with scraper := s.scraper ++ [row], next_id := s.next_id + 1 }, Except.ok row)

/-- Embeds `load_latest_scraper_for_source`: `ORDER BY version DESC LIMIT 1`
over this source's scrapers; among equal versions the choice the database
makes is unspecified, here the first row wins. -/
def load_latest_scraper_for_source (s : DB) (source : SourceRow) : Option ScraperRow :=
  (s.scraper.filter (fun r => r.source_id == source.id)).foldl
    (fun best r =>
      match best with
      | none => some r
      | some b => if r.version > b.version then some r else some b)
    none

/-- Model of `datetime.datetime` values occurring inside payloads; only the
fields rendered by `isoformat()` are kept. -/
structure PyDateTime where
  year : Nat
  month : Nat
  day : Nat
  hour : Nat
  minute : Nat
  second : Nat
deriving DecidableEq, Repr

/-- Zero-padded decimal rendering to two digits. -/
def pad2 (n : Nat) : String :=
  if n < 10 then "0" ++ toString n else toString n

/-- Zero-padded decimal rendering to four digits. -/
def pad4 (n : Nat) : String :=
  if n < 10 then "000" ++ toString n
  else if n < 100 then "00" ++ toString n
  else if n < 1000 then "0" ++ toString n
  else toString n

/-- Embeds `datetime.isoformat()` for whole-second datetimes:
`YYYY-MM-DDTHH:MM:SS`. -/
def PyDateTime.isoformat (d : PyDateTime) : String :=
  pad4 d.year ++ "-" ++ pad2 d.month ++ "-" ++ pad2 d.day ++ "T" ++
    pad2 d.hour ++ ":" ++ pad2 d.minute ++ ":" ++ pad2 d.second

mutual
/-- Model of the Python values a scraper may pass as an item payload:
strings, numbers, booleans, None, datetimes, and nested lists/dicts. -/
inductive PyVal where
  | vnone
  | vbool (b : Bool)
  | vint (n : Int)
  | vstr (s : String)
  | vdt (d : PyDateTime)
  | vlist (l : PyValList)
  | vdict (l : PyValDict)

/-- A Python list of payload values. -/
inductive PyValList where
  | nil
  | cons (hd : PyVal) (tl : PyValList)

/-- A Python dict of payload values (string keys, insertion order kept). -/
inductive PyValDict where
  | nil
  | cons (key : String) (val : PyVal) (tl : PyValDict)
end

/-- Python truthiness of a payload, as tested by `if data:`. -/
def PyVal.truthy : PyVal → Bool
  | .vnone => false
  | .vbool b => b
  | .vint n => !(n == 0)
  | .vstr s => !(s == "")
  | .vdt _ => true
  | .vlist .nil => false
  | .vlist (.cons _ _) => true
  | .vdict .nil => false
  | .vdict (.cons _ _ _) => true

/-- JSON escaping of one character of a string value, as `json.dumps` does
for the characters that occur in this system's payloads. -/
def jsonEscapeChar (c : Char) : String :=
  if c = '\\' then "\\\\"
  else if c = '"' then "\\\""
  else if c = '\n' then "\\n"
  else if c = '\t' then "\\t"
  else if c = '\r' then "\\r"
  else String.singleton c

/-- A JSON string literal: escaped and wrapped in double quotes. -/
def jsonQuote (s : String) : String :=
  "\"" ++ String.join (s.toList.map jsonEscapeChar) ++ "\""

mutual
/-- Embeds `json.dumps(data, cls=JsonDateTimeEncoder)`: standard JSON
rendering (default `json.dumps` separators) in which a datetime value is
rendered as the JSON string of its ISO-8601 `isoformat()`. -/
def jsonDumps : PyVal → String
  | .vnone => "null"
  | .vbool true => "true"
  | .vbool false => "false"
  | .vint n => toString n
  | .vstr s => jsonQuote s
  | .vdt d => jsonQuote d.isoformat
  | .vlist l => "[" ++ jsonDumpsList l ++ "]"
  | .vdict l => "\x7b" ++ jsonDumpsDict l ++ "\x7d"

/-- Comma-separated rendering of a JSON array body. -/
def jsonDumpsList : PyValList → String
  | .nil => ""
  | .cons x .nil => jsonDumps x
  | .cons x (.cons y tl) => jsonDumps x ++ ", " ++ jsonDumpsList (.cons y tl)

/-- Comma-separated rendering of a JSON object body. -/
def jsonDumpsDict : PyValDict → String
  | .nil => ""
  | .cons k v .nil => jsonQuote k ++ ": " ++ jsonDumps v
  | .cons k v (.cons k2 v2 tl) =>
      jsonQuote k ++ ": " ++ jsonDumps v ++ ", " ++ jsonDumpsDict (.cons k2 v2 tl)
end

/-- The text stored in `item_data.data`: dict and list payloads are
serialized with `json.dumps(..., cls=JsonDateTimeEncoder)`; any other value
is handed to the driver unserialized (a string is stored as itself, a
scalar as its textual rendering). -/
def itemDataPayload : PyVal → String
  | .vdict l => jsonDumps (.vdict l)
  | .vlist l => jsonDumps (.vlist l)
  | .vstr s => s
  | .vint n => toString n
  | .vbool b => toString b
  | .vnone => ""
  | .vdt d => d.isoformat

/-- Sample structured payload: a dict with one datetime-valued field. -/
def samplePayload : PyVal := .vdict (.cons "k" (.vdt ⟨2020, 1, 2, 3, 4, 5⟩) .nil)

/-- Embeds `_add_item_w_connection`: if an item row for (scraper.id, mbid)
exists, return False without writing; otherwise insert the item row with a
fresh id, attach an `item_data` row when the payload is truthy, and return
True. -/
def add_item_w_connection (s : DB) (scraper : ScraperRow) (mbid : Mbid)
    (data : PyVal) : Bool × DB :=
  if s.item.any (fun it => it.mbid == mbid && it.scraper_id == scraper.id) then
    (false, s)
  else
    let id := s.next_id
    let s1 := { s with item := s.item ++ [⟨id, scraper.id, mbid⟩], next_id := id + 1 }
    if data.truthy then
      (true, { s1 with item_data := s1.item_data ++ [(id, itemDataPayload data)] })
    else
      (true, s1)

/-- One mutating operation of the data-access layer.  `Step s s'` holds when
some public write operation of src/metadb/data.py turns store `s` into
store `s'`.  (The token operations are omitted with the token table: they
read and write nothing else.) -/
inductive Step : DB → DB → Prop where
  | addSource (s : DB) (name : String) : Step s (add_source s name).1
  | addRecordingMbids (s : DB) (mbids : List Mbid) :
      Step s (add_recording_mbids s mbids).2
  | addScraper (s : DB) (source : SourceRow) (module mb_type : String)
      (version : Nat) (description : String) :
      Step s (add_scraper s source module mb_type version description).1
  | addItem (s : DB) (scraper : ScraperRow) (mbid : Mbid) (data : PyVal) :
      Step s (add_item_w_connection s scraper mbid data).2
  | checkRedirect (s : DB) (query_mbid actual_mbid : Mbid) :
      Step s (musicbrainz_check_mbid_redirect s query_mbid actual_mbid)
  | cacheMetadata (s : DB) (recording : RecordingInput) :
      Step s (cache_musicbrainz_metadata s recording)

/-- Zero or more mutating operations. -/
def Reachable : DB → DB → Prop := Relation.ReflTransGen Step

/-- An error raised by the backing store while executing a statement.
`programming` marks the subclass `sqlalchemy.exc.ProgrammingError` (the
class covering SQL syntax errors); other store errors (operational errors,
integrity errors, ...) have it false. -/
structure DbError where
  programming : Bool
  message : String
deriving DecidableEq, Repr

deriving instance DecidableEq for Except

/-- Outcome of running a script with `run_sql_script_without_transaction`:
the statements actually handed to the store, the reported error lines
(`print("Error: ...")`), and either the returned boolean or a propagated
exception. -/
structure ScriptResult where
  executed : List String
  printed : List String
  outcome : Except DbError Bool
deriving DecidableEq, Repr

/-- Embeds `line.startswith("--")` on the character-list model of strings
(a reducible implementation, so that concrete script runs evaluate inside
proofs). -/
def strStartsWith (s pre : String) : Bool :=
  pre.data.isPrefixOf s.data

/-- Embeds `run_sql_script_without_transaction` from src/metadb/db.py.  The
store's response to each statement is the oracle `exec`.  Empty lines and
lines starting with `--` are skipped; a raised `ProgrammingError` is caught,
printed and turns the run into `return False`; any other store error
propagates out of the function (the `finally` clause only restores the
isolation level and closes the connection). -/
def run_sql_script_without_transaction (exec : String → Except DbError Unit) :
    List String → ScriptResult
  | [] => ⟨[], [], Except.ok true⟩
  | line :: rest =>
    if line != "" && !(strStartsWith line "--") then
      match exec line with
      | Except.ok _ =>
        let r := run_sql_script_without_transaction exec rest
        { r with executed := line :: r.executed }
      | Except.error e =>
        if e.programming then
          ⟨[line], ["Error: " ++ e.message], Except.ok false⟩
        else
          ⟨[line], [], Except.error e⟩
    else
      run_sql_script_without_transaction exec rest

/-- Modelled from the spec: `metadb.util.chunks` is imported by
src/dump_unprocessed.py but its module is not part of the sources; per the
spec, a configured per-file row limit splits the result rows into
consecutive chunks of at most that many rows. -/
def chunks (n : Nat) (l : List α) : List (List α) :=
  if _h : n = 0 then []
  else match l with
    | [] => []
    | x :: xs => (x :: xs).take n :: chunks n ((x :: xs).drop n)
termination_by l.length
decreasing_by
  simp only [List.length_drop, List.length_cons]
  omega

/-- A CSV file written by `dump_items`: its name, its header row (the key
set handed to `csv.DictWriter`) and its data rows (each dict rendered in
key order). -/
structure CsvFile where
  filename : String
  header : List String
  rows : List (List String)
deriving DecidableEq, Repr

/-- Embeds `dump_items` from src/dump_unprocessed.py: write the header row,
then one row per result dict, fields ordered by the key list. -/
def dump_items (filename : String) (data : List (List (String × String)))
    (keys : List String) : CsvFile :=
  ⟨filename, keys, data.map (fun row => keys.map (fun k => (row.lookup k).getD ""))⟩

/-- Embeds the chunked-output loop of `main`:
`for i, chunk in enumerate(chunks(data, perfile), 1)` writing
`<outname>-<i>.csv` per chunk. -/
def dump_chunked (outname : String) (keys : List String) (i : Nat) :
    List (List (List (String × String))) → List CsvFile
  | [] => []
  | c :: rest =>
    dump_items (outname ++ "-" ++ toString i ++ ".csv") c keys ::
      dump_chunked outname keys (i + 1) rest

/-- The result rows of `main` rendered as dicts, for the recording case. -/
def recordingRowDict (r : UnprocessedRecordingRow) : List (String × String) :=
  [("mbid", r.mbid), ("name", r.name), ("artist_credit", r.artist_credit)]

/-- The result rows of `main` rendered as dicts, for the release-group
case. -/
def releaseGroupRowDict (r : UnprocessedReleaseGroupRow) : List (String × String) :=
  [("mbid", r.mbid), ("name", r.name), ("artist_credit", r.artist_credit),
   ("first_release_date", r.first_release_date)]

/-- Embeds `main` from src/dump_unprocessed.py once the scraper has been
loaded (as-written, line 29 of the file is a syntax error — the `elif`
lacks its colon; this definition follows the evident intent of that line).
The key set is fixed by the scraper's `mb_type`; a configured (truthy)
`perfile` splits the rows over numbered files, otherwise one file
`<outname>.csv` is written; an `mb_type` outside the two branches leaves
`keys`/`data` unbound and the run dies (modelled as `none`). -/
def dump_main (s : DB) (scraper : ScraperRow) (outname : String)
    (perfile : Option Nat) : Option (List CsvFile) :=
  if scraper.mb_type == "recording" then
    let keys := ["mbid", "name", "artist_credit"]
    let data := (get_unprocessed_recordings_for_scraper s scraper none).map recordingRowDict
    some (match perfile with
      | some k =>
        if k == 0 then [dump_items (outname ++ ".csv") data keys]
        else dump_chunked outname keys 1 (chunks k data)
      | none => [dump_items (outname ++ ".csv") data keys])
  else if scraper.mb_type == "release_group" then
    let keys := ["mbid", "name", "artist_credit", "first_release_date"]
    let data := (get_unprocessed_release_groups_for_scraper s scraper none).map releaseGroupRowDict
    some (match perfile with
      | some k =>
        if k == 0 then [dump_items (outname ++ ".csv") data keys]
        else dump_chunked outname keys 1 (chunks k data)
      | none => [dump_items (outname ++ ".csv") data keys])
  else
    none

theorem add_recording_meta_none (s : DB) (rec : RecordingMetaRow)
    (h : get_recording_meta s rec.mbid = none) :
    add_recording_meta s rec = { s with recording_meta := s.recording_meta ++ [rec] } := by
  unfold add_recording_meta
  rw [h]

theorem add_recording_meta_stale (s : DB) (rec existing : RecordingMetaRow)
    (h : get_recording_meta s rec.mbid = some existing)
    (hle : rec.last_updated ≤ existing.last_updated) :
    add_recording_meta s rec = s := by
  unfold add_recording_meta
  rw [h]
  simp [hle]

theorem add_recording_meta_newer (s : DB) (rec existing : RecordingMetaRow)
    (h : get_recording_meta s rec.mbid = some existing)
    (hlt : existing.last_updated < rec.last_updated) :
    add_recording_meta s rec =
      { s with recording_meta := s.recording_meta.map (fun r =>
          if r.mbid == rec.mbid then
            ⟨r.mbid, rec.name, rec.artist_credit, rec.last_updated⟩
          else r) } := by
  unfold add_recording_meta
  rw [h]
  have hn : ¬ (existing.last_updated ≥ rec.last_updated) := Nat.not_le.mpr hlt
  simp [hn]

theorem get_recording_meta_after (s : DB) (rec : RecordingMetaRow) :
    ∃ r', get_recording_meta (add_recording_meta s rec) rec.mbid = some r' ∧
      rec.last_updated ≤ r'.last_updated := by
  cases h : get_recording_meta s rec.mbid with
  | none =>
    refine ⟨rec, ?_, le_refl _⟩
    rw [add_recording_meta_none s rec h]
    unfold get_recording_meta at h ⊢
    simp only [List.find?_append, h, Option.none_or]
    simp [List.find?]
  | some e =>
    by_cases hle : rec.last_updated ≤ e.last_updated
    · exact ⟨e, by rw [add_recording_meta_stale s rec e h hle]; exact h, hle⟩
    · refine ⟨⟨e.mbid, rec.name, rec.artist_credit, rec.last_updated⟩, ?_, le_refl _⟩
      rw [add_recording_meta_newer s rec e h (Nat.not_le.mp hle)]
      unfold get_recording_meta at h ⊢
      have hkey : (fun r : RecordingMetaRow =>
          ((if r.mbid == rec.mbid then
              (⟨r.mbid, rec.name, rec.artist_credit, rec.last_updated⟩ : RecordingMetaRow)
            else r).mbid == rec.mbid)) = (fun r : RecordingMetaRow => r.mbid == rec.mbid) := by
        funext r
        by_cases hr : r.mbid == rec.mbid <;> simp [hr]
      calc (s.recording_meta.map (fun r =>
              if r.mbid == rec.mbid then
                (⟨r.mbid, rec.name, rec.artist_credit, rec.last_updated⟩ : RecordingMetaRow)
              else r)).find? (fun r => r.mbid == rec.mbid)
          = (s.recording_meta.find? (fun r : RecordingMetaRow => r.mbid == rec.mbid)).map
              (fun r => if r.mbid == rec.mbid then
                (⟨r.mbid, rec.name, rec.artist_credit, rec.last_updated⟩ : RecordingMetaRow)
              else r) := by
            rw [List.find?_map]
            rw [show ((fun r : RecordingMetaRow => r.mbid == rec.mbid) ∘
                (fun r : RecordingMetaRow => if r.mbid == rec.mbid then
                  (⟨r.mbid, rec.name, rec.artist_credit, rec.last_updated⟩ : RecordingMetaRow)
                else r)) = (fun r : RecordingMetaRow => r.mbid == rec.mbid) from hkey]
        _ = some (if e.mbid == rec.mbid then
                (⟨e.mbid, rec.name, rec.artist_credit, rec.last_updated⟩ : RecordingMetaRow)
              else e) := by rw [h]; rfl
        _ = some ⟨e.mbid, rec.name, rec.artist_credit, rec.last_updated⟩ := by
              rw [if_pos (List.find?_some h)]

theorem add_release_group_meta_none (s : DB) (rg : ReleaseGroupMetaRow)
    (h : get_release_group_meta s rg.mbid = none) :
    add_release_group_meta s rg =
      { s with release_group := s.release_group ++ [rg.mbid],
               release_group_meta := s.release_group_meta ++ [rg] } := by
  unfold add_release_group_meta
  rw [h]

theorem add_release_group_meta_stale (s : DB) (rg existing : ReleaseGroupMetaRow)
    (h : get_release_group_meta s rg.mbid = some existing)
    (hle : rg.last_updated ≤ existing.last_updated) :
    add_release_group_meta s rg = s := by
  unfold add_release_group_meta
  rw [h]
  simp [hle]

theorem add_release_group_meta_newer (s : DB) (rg existing : ReleaseGroupMetaRow)
    (h : get_release_group_meta s rg.mbid = some existing)
    (hlt : existing.last_updated < rg.last_updated) :
    add_release_group_meta s rg =
      { s with release_group_meta := s.release_group_meta.map (fun r =>
          if r.mbid == rg.mbid then
            ⟨r.mbid, rg.name, rg.artist_credit, rg.first_release_date, rg.last_updated⟩
          else r) } := by
  unfold add_release_group_meta
  rw [h]
  have hn : ¬ (existing.last_updated ≥ rg.last_updated) := Nat.not_le.mpr hlt
  simp [hn]

theorem get_release_group_meta_after (s : DB) (rg : ReleaseGroupMetaRow) :
    ∃ r', get_release_group_meta (add_release_group_meta s rg) rg.mbid = some r' ∧
      rg.last_updated ≤ r'.last_updated := by
  cases h : get_release_group_meta s rg.mbid with
  | none =>
    refine ⟨rg, ?_, le_refl _⟩
    rw [add_release_group_meta_none s rg h]
    unfold get_release_group_meta at h ⊢
    simp only [List.find?_append, h, Option.none_or]
    simp [List.find?]
  | some e =>
    by_cases hle : rg.last_updated ≤ e.last_updated
    · exact ⟨e, by rw [add_release_group_meta_stale s rg e h hle]; exact h, hle⟩
    · refine ⟨⟨e.mbid, rg.name, rg.artist_credit, rg.first_release_date, rg.last_updated⟩,
        ?_, le_refl _⟩
      rw [add_release_group_meta_newer s rg e h (Nat.not_le.mp hle)]
      unfold get_release_group_meta at h ⊢
      have hkey : ((fun r : ReleaseGroupMetaRow => r.mbid == rg.mbid) ∘
          (fun r : ReleaseGroupMetaRow => if r.mbid == rg.mbid then
            (⟨r.mbid, rg.name, rg.artist_credit, rg.first_release_date, rg.last_updated⟩ :
              ReleaseGroupMetaRow)
          else r)) = (fun r : ReleaseGroupMetaRow => r.mbid == rg.mbid) := by
        funext r
        by_cases hr : r.mbid == rg.mbid <;> simp [Function.comp, hr]
      rw [List.find?_map, hkey, h]
      have hm := List.find?_some h
      rw [Option.map_some', if_pos hm]

/-- C1: for every recording-meta upsert: when no row for the mbid is
stored, the row with exactly the incoming fields is inserted; when a row
with `last_updated` greater than or equal to the incoming timestamp is
stored, the whole store is left unchanged (a silent no-op — the operation
is total, so nothing is raised); otherwise the stored rows for that mbid
receive the incoming name, artist_credit and last_updated, keeping their
mbid, and nothing else in the store changes. -/
theorem c1_recording_meta_upsert (s : DB) (rec : RecordingMetaRow) :
    (get_recording_meta s rec.mbid = none →
      add_recording_meta s rec = { s with recording_meta := s.recording_meta ++ [rec] })
    ∧ (∀ existing, get_recording_meta s rec.mbid = some existing →
        rec.last_updated ≤ existing.last_updated → add_recording_meta s rec = s)
    ∧ (∀ existing, get_recording_meta s rec.mbid = some existing →
        existing.last_updated < rec.last_updated →
        add_recording_meta s rec =
          { s with recording_meta := s.recording_meta.map (fun r =>
              if r.mbid == rec.mbid then
                ⟨r.mbid, rec.name, rec.artist_credit, rec.last_updated⟩
              else r) }) :=
  ⟨add_recording_meta_none s rec,
   fun e he hle => add_recording_meta_stale s rec e he hle,
   fun e he hlt => add_recording_meta_newer s rec e he hlt⟩

/-- Witness for C1: a fresh insert into the empty store and a stale update
against it, evaluated at concrete values. -/
theorem c1_recording_meta_upsert_witness :
    (get_recording_meta DB.empty "r1" = none ∧
      add_recording_meta DB.empty ⟨"r1", "n", "a", 5⟩ =
        { DB.empty with recording_meta := DB.empty.recording_meta ++ [⟨"r1", "n", "a", 5⟩] })
    ∧ (get_recording_meta { DB.empty with recording_meta := [⟨"r1", "n", "a", 5⟩] } "r1" =
        some ⟨"r1", "n", "a", 5⟩ ∧
      (4 : Timestamp) ≤ 5 ∧
      add_recording_meta { DB.empty with recording_meta := [⟨"r1", "n", "a", 5⟩] }
          ⟨"r1", "n2", "a2", 4⟩ =
        { DB.empty with recording_meta := [⟨"r1", "n", "a", 5⟩] }) :=
  ⟨⟨by decide, (c1_recording_meta_upsert DB.empty ⟨"r1", "n", "a", 5⟩).1 (by decide)⟩,
   ⟨by decide, by decide,
    (c1_recording_meta_upsert { DB.empty with recording_meta := [⟨"r1", "n", "a", 5⟩] }
        ⟨"r1", "n2", "a2", 4⟩).2.1 ⟨"r1", "n", "a", 5⟩ (by decide) (by decide)⟩⟩

/-- C2: for a single mbid, applying an upsert with timestamp t2 and then
one with t1 < t2 leaves exactly the state of the t2 upsert alone, and
applying the identical upsert twice equals applying it once — for recording
meta and for release-group meta alike. -/
theorem c2_meta_upsert_commutes_idempotent :
    (∀ (s : DB) (mbid n1 a1 n2 a2 : String) (t1 t2 : Timestamp), t1 < t2 →
      add_recording_meta (add_recording_meta s ⟨mbid, n2, a2, t2⟩) ⟨mbid, n1, a1, t1⟩ =
        add_recording_meta s ⟨mbid, n2, a2, t2⟩)
    ∧ (∀ (s : DB) (rec : RecordingMetaRow),
        add_recording_meta (add_recording_meta s rec) rec = add_recording_meta s rec)
    ∧ (∀ (s : DB) (mbid n1 a1 f1 n2 a2 f2 : String) (t1 t2 : Timestamp), t1 < t2 →
        add_release_group_meta (add_release_group_meta s ⟨mbid, n2, a2, f2, t2⟩)
            ⟨mbid, n1, a1, f1, t1⟩ =
          add_release_group_meta s ⟨mbid, n2, a2, f2, t2⟩)
    ∧ (∀ (s : DB) (rg : ReleaseGroupMetaRow),
        add_release_group_meta (add_release_group_meta s rg) rg =
          add_release_group_meta s rg) := by
  refine ⟨?_, ?_, ?_, ?_⟩
  · intro s mbid n1 a1 n2 a2 t1 t2 hlt
    obtain ⟨r', hg, hle⟩ := get_recording_meta_after s ⟨mbid, n2, a2, t2⟩
    exact add_recording_meta_stale _ ⟨mbid, n1, a1, t1⟩ r' hg
      (le_of_lt (lt_of_lt_of_le hlt hle))
  · intro s rec
    obtain ⟨r', hg, hle⟩ := get_recording_meta_after s rec
    exact add_recording_meta_stale _ rec r' hg hle
  · intro s mbid n1 a1 f1 n2 a2 f2 t1 t2 hlt
    obtain ⟨r', hg, hle⟩ := get_release_group_meta_after s ⟨mbid, n2, a2, f2, t2⟩
    exact add_release_group_meta_stale _ ⟨mbid, n1, a1, f1, t1⟩ r' hg
      (le_of_lt (lt_of_lt_of_le hlt hle))
  · intro s rg
    obtain ⟨r', hg, hle⟩ := get_release_group_meta_after s rg
    exact add_release_group_meta_stale _ rg r' hg hle

/-- Witness for C2: the out-of-order pair (t2 = 1 then t1 = 0) on the empty
store coincides with applying t2 alone, evaluated at concrete values. -/
theorem c2_meta_upsert_commutes_idempotent_witness :
    (0 : Timestamp) < 1 ∧
    add_recording_meta (add_recording_meta DB.empty ⟨"m", "n2", "a2", 1⟩)
        ⟨"m", "n1", "a1", 0⟩ =
      add_recording_meta DB.empty ⟨"m", "n2", "a2", 1⟩ :=
  ⟨by decide,
   c2_meta_upsert_commutes_idempotent.1 DB.empty "m" "n1" "a1" "n2" "a2" 0 1 (by decide)⟩

/-- C5: registering a scraper whose mb_type is outside
{recording, release_group} yields the invalid-argument error and leaves the
store completely unchanged — the check precedes every write. -/
theorem c5_add_scraper_invalid_mb_type (s : DB) (source : SourceRow)
    (module mb_type : String) (version : Nat) (description : String)
    (h : mb_type ∉ (["recording", "release_group"] : List String)) :
    (add_scraper s source module mb_type version description).1 = s ∧
    (add_scraper s source module mb_type version description).2 =
      Except.error "Invalid mb_type. Must be one of [recording, release_group]" := by
  unfold add_scraper
  rw [if_pos h]
  exact ⟨rfl, rfl⟩

/-- C4: recording an item for a (scraper, mbid) pair that already has an
item row returns False and leaves the store untouched; otherwise exactly
one item row is inserted, an item_data row is attached if and only if the
payload is truthy, and True is returned; dict and list payloads are stored
JSON-encoded, and an encoded datetime is the JSON string of its ISO-8601
rendering. -/
theorem c4_record_item (s : DB) (scraper : ScraperRow) (mbid : Mbid) (data : PyVal) :
    (s.item.any (fun it => it.mbid == mbid && it.scraper_id == scraper.id) = true →
      add_item_w_connection s scraper mbid data = (false, s))
    ∧ (s.item.any (fun it => it.mbid == mbid && it.scraper_id == scraper.id) = false →
      add_item_w_connection s scraper mbid data =
        (true,
         { s with
             item := s.item ++ [⟨s.next_id, scraper.id, mbid⟩],
             item_data := s.item_data ++
               (if data.truthy then [(s.next_id, itemDataPayload data)] else []),
             next_id := s.next_id + 1 }))
    ∧ (∀ l, itemDataPayload (PyVal.vdict l) = jsonDumps (PyVal.vdict l))
    ∧ (∀ l, itemDataPayload (PyVal.vlist l) = jsonDumps (PyVal.vlist l))
    ∧ (∀ d, jsonDumps (PyVal.vdt d) = jsonQuote d.isoformat) := by
  refine ⟨?_, ?_, fun l => rfl, fun l => rfl, fun d => rfl⟩
  · intro h
    unfold add_item_w_connection
    rw [if_pos h]
  · intro h
    unfold add_item_w_connection
    rw [if_neg (by simp [h])]
    by_cases ht : data.truthy <;> simp [ht]

/-- Witness for C4: storing a dict payload carrying a datetime into the
empty store, evaluated at concrete values, together with the rendered
JSON text. -/
theorem c4_record_item_witness :
    (DB.empty.item.any (fun it => it.mbid == "m" && it.scraper_id == 7) = false) ∧
    add_item_w_connection DB.empty ⟨7, 1, "mod", "recording", 1, "d"⟩ "m" samplePayload =
      (true,
       { DB.empty with
           item := DB.empty.item ++ [⟨DB.empty.next_id, 7, "m"⟩],
           item_data := DB.empty.item_data ++
             (if samplePayload.truthy then
               [(DB.empty.next_id, itemDataPayload samplePayload)] else []),
           next_id := DB.empty.next_id + 1 }) ∧
    itemDataPayload samplePayload = "\x7b\"k\": \"2020-01-02T03:04:05\"\x7d" :=
  ⟨by decide,
   (c4_record_item DB.empty ⟨7, 1, "mod", "recording", 1, "d"⟩ "m" samplePayload).2.1
     (by decide),
   by decide⟩

/-- C6: an identity mbid with no recording_meta row and no redirect row is
absent from every scraper's unprocessed-recordings result (the inner join
against recording_meta drops it) but present in the missing-meta
diagnostic. -/
theorem c6_missing_meta_vs_unprocessed (s : DB) (r : Mbid) (scraper : ScraperRow)
    (mf : Option Mbid)
    (hrec : r ∈ s.recording)
    (hmeta : ∀ m ∈ s.recording_meta, m.mbid ≠ r)
    (hrr : ∀ p ∈ s.recording_redirect, p.1 ≠ r) :
    (∀ row ∈ get_unprocessed_recordings_for_scraper s scraper mf, row.mbid ≠ r)
    ∧ r ∈ get_recordings_missing_meta s := by
  constructor
  · intro row hrow hbid
    unfold get_unprocessed_recordings_for_scraper at hrow
    rw [List.mem_filter] at hrow
    obtain ⟨hmem, _⟩ := hrow
    rw [List.mem_flatMap] at hmem
    obtain ⟨a, _, hmap⟩ := hmem
    rw [List.mem_map] at hmap
    obtain ⟨m, hm, heq⟩ := hmap
    rw [List.mem_filter] at hm
    obtain ⟨hmmem, hmbid⟩ := hm
    have : row.mbid = a := by rw [← heq]
    exact hmeta m hmmem (by rw [eq_of_beq hmbid, ← this, hbid])
  · unfold get_recordings_missing_meta
    rw [List.mem_filter]
    refine ⟨hrec, ?_⟩
    rw [Bool.and_eq_true, List.all_eq_true, List.all_eq_true]
    constructor
    · intro m hm
      simpa using hmeta m hm
    · intro p hp
      simpa using hrr p hp

/-- Witness for C6: a store knowing only the identity "r1", evaluated at
concrete values. -/
theorem c6_missing_meta_vs_unprocessed_witness :
    ("r1" ∈ ({ DB.empty with recording := ["r1"] } : DB).recording) ∧
    (∀ row ∈ get_unprocessed_recordings_for_scraper { DB.empty with recording := ["r1"] }
        ⟨0, 0, "mod", "recording", 1, "d"⟩ none, row.mbid ≠ "r1") ∧
    "r1" ∈ get_recordings_missing_meta { DB.empty with recording := ["r1"] } := by
  have h := c6_missing_meta_vs_unprocessed { DB.empty with recording := ["r1"] } "r1"
    ⟨0, 0, "mod", "recording", 1, "d"⟩ none (by decide)
    (by intro m hm; simp [DB.empty] at hm) (by intro p hp; simp [DB.empty] at hp)
  exact ⟨by decide, h.1, h.2⟩

/-- Witness for C5: registering with mb_type "album" on the empty store. -/
theorem c5_add_scraper_invalid_mb_type_witness :
    ("album" ∉ (["recording", "release_group"] : List String)) ∧
    (add_scraper DB.empty ⟨1, "src"⟩ "mod" "album" 1 "desc").1 = DB.empty ∧
    (add_scraper DB.empty ⟨1, "src"⟩ "mod" "album" 1 "desc").2 =
      Except.error "Invalid mb_type. Must be one of [recording, release_group]" :=
  ⟨by decide,
   c5_add_scraper_invalid_mb_type DB.empty ⟨1, "src"⟩ "mod" "album" 1 "desc" (by decide)⟩

theorem add_recording_mbids_frame (mbids : List Mbid) : ∀ s : DB,
    (add_recording_mbids s mbids).2.recording_redirect = s.recording_redirect ∧
    (add_recording_mbids s mbids).2.release_group = s.release_group ∧
    (add_recording_mbids s mbids).2.release_group_meta = s.release_group_meta := by
  induction mbids with
  | nil => intro s; exact ⟨rfl, rfl, rfl⟩
  | cons m rest ih =>
    intro s
    unfold add_recording_mbids
    by_cases h : s.recording.contains m
    · rw [if_pos h]; exact ih s
    · rw [if_neg h]
      dsimp only
      have hf := ih { s with recording := s.recording ++ [m] }
      rcases hrec : add_recording_mbids { s with recording := s.recording ++ [m] } rest
        with ⟨ret, s''⟩
      rw [hrec] at hf
      simpa using hf

theorem add_recording_meta_tables (s : DB) (rec : RecordingMetaRow) :
    (add_recording_meta s rec).recording_redirect = s.recording_redirect ∧
    (add_recording_meta s rec).release_group = s.release_group ∧
    (add_recording_meta s rec).release_group_meta = s.release_group_meta := by
  unfold add_recording_meta
  split
  all_goals try split
  all_goals exact ⟨rfl, rfl, rfl⟩

theorem add_release_group_meta_redirect (s : DB) (rg : ReleaseGroupMetaRow) :
    (add_release_group_meta s rg).recording_redirect = s.recording_redirect := by
  unfold add_release_group_meta
  split
  all_goals try split
  all_goals rfl

theorem add_link_frame (s : DB) (r g : Mbid) :
    (add_link_recording_release_group s r g).recording_redirect = s.recording_redirect ∧
    (add_link_recording_release_group s r g).release_group = s.release_group ∧
    (add_link_recording_release_group s r g).release_group_meta = s.release_group_meta := by
  unfold add_link_recording_release_group
  by_cases h : s.recording_release_group.contains (r, g)
  · rw [if_pos h]; exact ⟨rfl, rfl, rfl⟩
  · rw [if_neg h]; exact ⟨rfl, rfl, rfl⟩

theorem add_item_frame (s : DB) (scraper : ScraperRow) (mbid : Mbid) (data : PyVal) :
    (add_item_w_connection s scraper mbid data).2.recording_redirect = s.recording_redirect ∧
    (add_item_w_connection s scraper mbid data).2.release_group = s.release_group ∧
    (add_item_w_connection s scraper mbid data).2.release_group_meta = s.release_group_meta := by
  unfold add_item_w_connection
  by_cases h : s.item.any (fun it => it.mbid == mbid && it.scraper_id == scraper.id)
  · rw [if_pos h]; exact ⟨rfl, rfl, rfl⟩
  · rw [if_neg h]
    by_cases ht : data.truthy
    · rw [if_pos ht]; exact ⟨rfl, rfl, rfl⟩
    · rw [if_neg ht]; exact ⟨rfl, rfl, rfl⟩

theorem add_scraper_frame (s : DB) (source : SourceRow) (module mbt : String)
    (version : Nat) (description : String) :
    (add_scraper s source module mbt version description).1.recording_redirect =
      s.recording_redirect ∧
    (add_scraper s source module mbt version description).1.release_group =
      s.release_group ∧
    (add_scraper s source module mbt version description).1.release_group_meta =
      s.release_group_meta := by
  unfold add_scraper
  by_cases h : mbt ∉ (["recording", "release_group"] : List String)
  · rw [if_pos h]; exact ⟨rfl, rfl, rfl⟩
  · rw [if_neg h]; exact ⟨rfl, rfl, rfl⟩

theorem check_redirect_frame (s : DB) (q a : Mbid) :
    (musicbrainz_check_mbid_redirect s q a).release_group = s.release_group ∧
    (musicbrainz_check_mbid_redirect s q a).release_group_meta = s.release_group_meta := by
  unfold musicbrainz_check_mbid_redirect
  by_cases h1 : q == a
  · rw [if_pos h1]; exact ⟨rfl, rfl⟩
  · rw [if_neg h1]
    by_cases h2 : s.recording_redirect.contains (q, a)
    · rw [if_pos h2]; exact ⟨rfl, rfl⟩
    · rw [if_neg h2]
      exact ⟨(add_recording_mbids_frame [a] s).2.1, (add_recording_mbids_frame [a] s).2.2⟩

theorem redirect_mem_check (s : DB) (q a : Mbid) {p : Mbid × Mbid}
    (hp : p ∈ s.recording_redirect) :
    p ∈ (musicbrainz_check_mbid_redirect s q a).recording_redirect := by
  unfold musicbrainz_check_mbid_redirect
  by_cases h1 : q == a
  · rw [if_pos h1]; exact hp
  · rw [if_neg h1]
    by_cases h2 : s.recording_redirect.contains (q, a)
    · rw [if_pos h2]; exact hp
    · rw [if_neg h2]
      refine List.mem_append_left _ ?_
      rw [(add_recording_mbids_frame [a] s).1]
      exact hp

theorem redirect_mem_after (s : DB) (a b : Mbid) (hab : a ≠ b) :
    (a, b) ∈ (musicbrainz_check_mbid_redirect s a b).recording_redirect := by
  unfold musicbrainz_check_mbid_redirect
  rw [if_neg (by simpa using hab)]
  by_cases h2 : s.recording_redirect.contains (a, b)
  · rw [if_pos h2]; simpa using h2
  · rw [if_neg h2]
    exact List.mem_append_right _ (by simp)

theorem cache_metadata_redirect (s : DB) (rec : RecordingInput) :
    (cache_musicbrainz_metadata s rec).recording_redirect = s.recording_redirect := by
  unfold cache_musicbrainz_metadata
  have haux : ∀ (l : List ReleaseGroupMetaRow) (t : DB),
      (l.foldl (fun acc rg =>
          add_link_recording_release_group (add_release_group_meta acc rg)
            rec.meta.mbid rg.mbid) t).recording_redirect = t.recording_redirect := by
    intro l
    induction l with
    | nil => intro t; rfl
    | cons x xs ih =>
      intro t
      rw [List.foldl_cons, ih]
      rw [(add_link_frame _ _ _).1, add_release_group_meta_redirect]
  rw [haux, (add_recording_meta_tables s rec.meta).1]

theorem step_redirect_mono {s s' : DB} (h : Step s s') {p : Mbid × Mbid}
    (hp : p ∈ s.recording_redirect) : p ∈ s'.recording_redirect := by
  cases h with
  | addSource name => exact hp
  | addRecordingMbids mbids => rw [(add_recording_mbids_frame mbids s).1]; exact hp
  | addScraper source module mbt version description =>
    rw [(add_scraper_frame s source module mbt version description).1]; exact hp
  | addItem scraper mbid data => rw [(add_item_frame s scraper mbid data).1]; exact hp
  | checkRedirect q a => exact redirect_mem_check s q a hp
  | cacheMetadata rec => rw [cache_metadata_redirect]; exact hp

theorem reachable_redirect_mono {s s' : DB} (h : Reachable s s') {p : Mbid × Mbid}
    (hp : p ∈ s.recording_redirect) : p ∈ s'.recording_redirect := by
  induction h with
  | refl => exact hp
  | tail _ hbc ih => exact step_redirect_mono hbc ih

theorem redirect_excludes_unprocessed (s : DB) {a b : Mbid}
    (hmem : (a, b) ∈ s.recording_redirect) (scraper : ScraperRow) (mf : Option Mbid) :
    ∀ row ∈ get_unprocessed_recordings_for_scraper s scraper mf, row.mbid ≠ a := by
  intro row hrow hbid
  unfold get_unprocessed_recordings_for_scraper at hrow
  rw [List.mem_filter] at hrow
  obtain ⟨-, hcond⟩ := hrow
  simp only [Bool.and_eq_true] at hcond
  obtain ⟨⟨-, hall⟩, -⟩ := hcond
  rw [List.all_eq_true] at hall
  have hcontra := hall (a, b) hmem
  simp [hbid] at hcontra

/-- C3: once recordRedirect(A, B) has run for distinct mbids A and B, the
redirect row for A persists through every further sequence of data-layer
operations, so A never appears in any scraper's unprocessed-recordings
result in any subsequently reachable state. -/
theorem c3_redirect_permanently_excluded (s0 s2 : DB) (a b : Mbid)
    (scraper : ScraperRow) (mf : Option Mbid) (hab : a ≠ b)
    (hreach : Reachable (musicbrainz_check_mbid_redirect s0 a b) s2) :
    ∀ row ∈ get_unprocessed_recordings_for_scraper s2 scraper mf, row.mbid ≠ a :=
  redirect_excludes_unprocessed s2
    (reachable_redirect_mono hreach (redirect_mem_after s0 a b hab)) scraper mf

/-- Witness for C3: the redirect a→b on the empty store, with the empty
suffix of operations, evaluated at a concrete scraper. -/
theorem c3_redirect_permanently_excluded_witness :
    ("a" : Mbid) ≠ "b" ∧
    (∀ row ∈ get_unprocessed_recordings_for_scraper
        (musicbrainz_check_mbid_redirect DB.empty "a" "b")
        ⟨0, 0, "mod", "recording", 1, "d"⟩ none,
      row.mbid ≠ "a") :=
  ⟨by decide,
   c3_redirect_permanently_excluded DB.empty
     (musicbrainz_check_mbid_redirect DB.empty "a" "b") "a" "b"
     ⟨0, 0, "mod", "recording", 1, "d"⟩ none (by decide) Relation.ReflTransGen.refl⟩

theorem add_release_group_meta_ident (s : DB) (rg : ReleaseGroupMetaRow)
    (hP : ∀ m ∈ s.release_group_meta, m.mbid ∈ s.release_group) :
    ∀ m ∈ (add_release_group_meta s rg).release_group_meta,
      m.mbid ∈ (add_release_group_meta s rg).release_group := by
  cases h : get_release_group_meta s rg.mbid with
  | none =>
    rw [add_release_group_meta_none s rg h]
    intro m hm
    simp only [List.mem_append] at hm ⊢
    rcases hm with hm | hm
    · exact Or.inl (hP m hm)
    · simp only [List.mem_singleton] at hm
      subst hm
      exact Or.inr (by simp)
  | some e =>
    by_cases hle : rg.last_updated ≤ e.last_updated
    · rw [add_release_group_meta_stale s rg e h hle]; exact hP
    · rw [add_release_group_meta_newer s rg e h (Nat.not_le.mp hle)]
      intro m hm
      simp only [List.mem_map] at hm
      obtain ⟨m0, hm0, heq⟩ := hm
      have hmbid : m.mbid = m0.mbid := by
        subst heq
        by_cases hx : m0.mbid == rg.mbid <;> simp [hx]
      rw [hmbid]
      exact hP m0 hm0

theorem step_rg_ident {s s' : DB} (h : Step s s')
    (hP : ∀ m ∈ s.release_group_meta, m.mbid ∈ s.release_group) :
    ∀ m ∈ s'.release_group_meta, m.mbid ∈ s'.release_group := by
  cases h with
  | addSource name => exact hP
  | addRecordingMbids mbids =>
    intro m hm
    rw [(add_recording_mbids_frame mbids s).2.2] at hm
    rw [(add_recording_mbids_frame mbids s).2.1]
    exact hP m hm
  | addScraper source module mbt version description =>
    intro m hm
    rw [(add_scraper_frame s source module mbt version description).2.2] at hm
    rw [(add_scraper_frame s source module mbt version description).2.1]
    exact hP m hm
  | addItem scraper mbid data =>
    intro m hm
    rw [(add_item_frame s scraper mbid data).2.2] at hm
    rw [(add_item_frame s scraper mbid data).2.1]
    exact hP m hm
  | checkRedirect q a =>
    intro m hm
    rw [(check_redirect_frame s q a).2] at hm
    rw [(check_redirect_frame s q a).1]
    exact hP m hm
  | cacheMetadata rec =>
    have haux : ∀ (l : List ReleaseGroupMetaRow) (t : DB),
        (∀ m ∈ t.release_group_meta, m.mbid ∈ t.release_group) →
        ∀ m ∈ (l.foldl (fun acc rg =>
            add_link_recording_release_group (add_release_group_meta acc rg)
              rec.meta.mbid rg.mbid) t).release_group_meta,
          m.mbid ∈ (l.foldl (fun acc rg =>
            add_link_recording_release_group (add_release_group_meta acc rg)
              rec.meta.mbid rg.mbid) t).release_group := by
      intro l
      induction l with
      | nil => intro t ht; exact ht
      | cons x xs ih =>
        intro t ht
        rw [List.foldl_cons]
        apply ih
        intro m hm
        rw [(add_link_frame _ _ _).2.2] at hm
        rw [(add_link_frame _ _ _).2.1]
        exact add_release_group_meta_ident t x ht m hm
    unfold cache_musicbrainz_metadata
    apply haux
    intro m hm
    rw [(add_recording_meta_tables s rec.meta).2.2] at hm
    rw [(add_recording_meta_tables s rec.meta).2.1]
    exact hP m hm

theorem reachable_rg_ident {s s' : DB} (h : Reachable s s')
    (hP : ∀ m ∈ s.release_group_meta, m.mbid ∈ s.release_group) :
    ∀ m ∈ s'.release_group_meta, m.mbid ∈ s'.release_group := by
  induction h with
  | refl => exact hP
  | tail _ hbc ih => exact step_rg_ident hbc ih

/-- C7: a release-group-meta upsert that inserts a new meta row also inserts
the bare release-group identity row in the same operation, an upsert that
updates an existing meta row leaves the identity table unchanged, and in
every state reachable from the empty store every release_group_meta row has
its identity row in release_group. -/
theorem c7_release_group_meta_identity :
    (∀ (s : DB) (rg : ReleaseGroupMetaRow), get_release_group_meta s rg.mbid = none →
      (add_release_group_meta s rg).release_group = s.release_group ++ [rg.mbid] ∧
      (add_release_group_meta s rg).release_group_meta = s.release_group_meta ++ [rg])
    ∧ (∀ (s : DB) (rg : ReleaseGroupMetaRow) existing,
        get_release_group_meta s rg.mbid = some existing →
        (add_release_group_meta s rg).release_group = s.release_group)
    ∧ (∀ s : DB, Reachable DB.empty s →
        ∀ m ∈ s.release_group_meta, m.mbid ∈ s.release_group) := by
  refine ⟨?_, ?_, ?_⟩
  · intro s rg h
    rw [add_release_group_meta_none s rg h]
    exact ⟨rfl, rfl⟩
  · intro s rg e h
    by_cases hle : rg.last_updated ≤ e.last_updated
    · rw [add_release_group_meta_stale s rg e h hle]
    · rw [add_release_group_meta_newer s rg e h (Nat.not_le.mp hle)]
  · intro s hreach
    exact reachable_rg_ident hreach (by intro m hm; simp [DB.empty] at hm)

/-- Witness for C7: one caching operation from the empty store inserts a
release group and its identity row; the invariant holds in the resulting
state, and the insert/update branches are exercised at concrete values. -/
theorem c7_release_group_meta_identity_witness :
    (get_release_group_meta DB.empty "g" = none ∧
      (add_release_group_meta DB.empty ⟨"g", "gn", "ga", "2001", 1⟩).release_group =
        DB.empty.release_group ++ ["g"] ∧
      (add_release_group_meta DB.empty ⟨"g", "gn", "ga", "2001", 1⟩).release_group_meta =
        DB.empty.release_group_meta ++ [⟨"g", "gn", "ga", "2001", 1⟩])
    ∧ (Reachable DB.empty
        (cache_musicbrainz_metadata DB.empty
          ⟨⟨"r", "n", "a", 1⟩, [⟨"g", "gn", "ga", "2001", 1⟩]⟩) ∧
      ∀ m ∈ (cache_musicbrainz_metadata DB.empty
          ⟨⟨"r", "n", "a", 1⟩, [⟨"g", "gn", "ga", "2001", 1⟩]⟩).release_group_meta,
        m.mbid ∈ (cache_musicbrainz_metadata DB.empty
          ⟨⟨"r", "n", "a", 1⟩, [⟨"g", "gn", "ga", "2001", 1⟩]⟩).release_group) :=
  ⟨⟨by decide,
    c7_release_group_meta_identity.1 DB.empty ⟨"g", "gn", "ga", "2001", 1⟩ (by decide)⟩,
   Relation.ReflTransGen.single (Step.cacheMetadata DB.empty
     ⟨⟨"r", "n", "a", 1⟩, [⟨"g", "gn", "ga", "2001", 1⟩]⟩),
   c7_release_group_meta_identity.2.2 _
     (Relation.ReflTransGen.single (Step.cacheMetadata DB.empty
       ⟨⟨"r", "n", "a", 1⟩, [⟨"g", "gn", "ga", "2001", 1⟩]⟩))⟩

theorem add_recording_mbids_single (s : DB) (b : Mbid) :
    (add_recording_mbids s [b]).2 =
      if s.recording.contains b then s
      else { s with recording := s.recording ++ [b] } := by
  simp only [add_recording_mbids]
  by_cases h : b ∈ s.recording <;> simp [h]

/-- C10: recordRedirect(query, actual) on distinct mbids never registers the
query mbid: its identity-store membership is exactly as before the call; the
redirect target may be newly registered; and from a state where the query
mbid is unknown, the call leaves a redirect row whose source mbid is absent
from the identity store. -/
theorem c10_redirect_never_registers_query (s : DB) (a b : Mbid) (hab : a ≠ b) :
    ((a ∈ (musicbrainz_check_mbid_redirect s a b).recording) ↔ a ∈ s.recording)
    ∧ ((a, b) ∉ s.recording_redirect →
        b ∈ (musicbrainz_check_mbid_redirect s a b).recording)
    ∧ (a ∉ s.recording →
        (a, b) ∈ (musicbrainz_check_mbid_redirect s a b).recording_redirect ∧
        a ∉ (musicbrainz_check_mbid_redirect s a b).recording) := by
  have h1 : (a ∈ (musicbrainz_check_mbid_redirect s a b).recording) ↔ a ∈ s.recording := by
    unfold musicbrainz_check_mbid_redirect
    rw [if_neg (by simpa using hab)]
    by_cases h2 : s.recording_redirect.contains (a, b)
    · rw [if_pos h2]
    · rw [if_neg h2]
      show a ∈ (add_recording_mbids s [b]).2.recording ↔ a ∈ s.recording
      rw [add_recording_mbids_single]
      by_cases hb : s.recording.contains b
      · rw [if_pos hb]
      · rw [if_neg hb]
        simp [hab]
  refine ⟨h1, ?_, fun ha => ⟨redirect_mem_after s a b hab, fun hmem => ha (h1.mp hmem)⟩⟩
  intro hpair
  unfold musicbrainz_check_mbid_redirect
  rw [if_neg (by simpa using hab)]
  rw [if_neg (fun hc => hpair (by simpa using hc))]
  show b ∈ (add_recording_mbids s [b]).2.recording
  rw [add_recording_mbids_single]
  by_cases hb : s.recording.contains b
  · rw [if_pos hb]; simpa using hb
  · rw [if_neg hb]; simp

/-- Witness for C10: the redirect a→b on the empty store, evaluated at
concrete values. -/
theorem c10_redirect_never_registers_query_witness :
    ("a" : Mbid) ≠ "b" ∧
    ("a" ∉ (DB.empty : DB).recording) ∧
    ("a", "b") ∈ (musicbrainz_check_mbid_redirect DB.empty "a" "b").recording_redirect ∧
    "a" ∉ (musicbrainz_check_mbid_redirect DB.empty "a" "b").recording :=
  ⟨by decide, by decide,
   (c10_redirect_never_registers_query DB.empty "a" "b" (by decide)).2.2 (by decide)⟩

/-- Counterexample to C8 as stated: a backing-store error that is not a
ProgrammingError (here a lost connection) raised while executing a line is
not turned into a False return and is not reported — it propagates out of
the runner. -/
theorem c8_counterexample :
    run_sql_script_without_transaction
        (fun _ => Except.error ⟨false, "server closed the connection"⟩)
        ["SELECT 1"] =
      ⟨["SELECT 1"], [], Except.error ⟨false, "server closed the connection"⟩⟩ ∧
    (run_sql_script_without_transaction
        (fun _ => Except.error ⟨false, "server closed the connection"⟩)
        ["SELECT 1"]).outcome ≠ Except.ok false := by
  constructor
  · rfl
  · decide

/-- C8 amended: lines that are empty or start with the comment marker are
never executed; a ProgrammingError (the class covering script syntax
errors) raised on a line aborts the remaining lines, is reported, and makes
the runner return False; any other backing-store error also aborts the
remaining lines but propagates to the caller unreported. -/
theorem c8_script_runner_amended :
    (∀ (exec : String → Except DbError Unit) (lines : List String) (l : String),
        l ∈ (run_sql_script_without_transaction exec lines).executed →
        l ≠ "" ∧ strStartsWith l "--" = false)
    ∧ (∀ (exec : String → Except DbError Unit) (line : String) (lines : List String),
        (line = "" ∨ strStartsWith line "--" = true) →
        run_sql_script_without_transaction exec (line :: lines) =
          run_sql_script_without_transaction exec lines)
    ∧ (∀ (exec : String → Except DbError Unit) (line : String) (lines : List String)
        (e : DbError), line ≠ "" → strStartsWith line "--" = false →
        exec line = Except.error e →
        run_sql_script_without_transaction exec (line :: lines) =
          if e.programming then
            ⟨[line], ["Error: " ++ e.message], Except.ok false⟩
          else
            ⟨[line], [], Except.error e⟩) := by
  refine ⟨?_, ?_, ?_⟩
  · intro exec lines
    induction lines with
    | nil =>
      intro l hl
      simp [run_sql_script_without_transaction] at hl
    | cons x xs ih =>
      intro l hl
      unfold run_sql_script_without_transaction at hl
      by_cases hx : (x != "" && !(strStartsWith x "--")) = true
      · rw [if_pos hx] at hl
        simp only [Bool.and_eq_true, bne_iff_ne, Bool.not_eq_true'] at hx
        cases hexec : exec x with
        | ok u =>
          rw [hexec] at hl
          dsimp only at hl
          simp only [List.mem_cons] at hl
          rcases hl with hl | hl
          · subst hl
            exact ⟨hx.1, hx.2⟩
          · exact ih l hl
        | error e =>
          rw [hexec] at hl
          dsimp only at hl
          by_cases hp : e.programming
          · rw [if_pos hp] at hl
            simp only [List.mem_singleton] at hl
            subst hl
            exact ⟨hx.1, hx.2⟩
          · rw [if_neg hp] at hl
            simp only [List.mem_singleton] at hl
            subst hl
            exact ⟨hx.1, hx.2⟩
      · rw [if_neg hx] at hl
        exact ih l hl
  · intro exec line lines hline
    conv_lhs => unfold run_sql_script_without_transaction
    rw [if_neg (by rcases hline with h | h <;> simp [h])]
  · intro exec line lines e hne hcomment hexec
    conv_lhs => unfold run_sql_script_without_transaction
    rw [if_pos (by simp [hne, hcomment]), hexec]

/-- Witness for C8 amended: a syntax error on the only line of a script,
with a comment line and an empty line skipped, evaluated at concrete
values. -/
theorem c8_script_runner_amended_witness :
    ("CREATE EXTENSION x" ≠ "") ∧ (strStartsWith "CREATE EXTENSION x" "--" = false) ∧
    run_sql_script_without_transaction
        (fun _ => Except.error ⟨true, "syntax error at x"⟩) ["CREATE EXTENSION x"] =
      (if (DbError.mk true "syntax error at x").programming then
        ⟨["CREATE EXTENSION x"], ["Error: " ++ "syntax error at x"], Except.ok false⟩
      else
        ⟨["CREATE EXTENSION x"], [], Except.error ⟨true, "syntax error at x"⟩⟩) ∧
    run_sql_script_without_transaction
        (fun _ => Except.error ⟨true, "syntax error at x"⟩) ["-- comment"] =
      run_sql_script_without_transaction
        (fun _ => Except.error ⟨true, "syntax error at x"⟩) [] :=
  ⟨by decide, by decide,
   c8_script_runner_amended.2.2 (fun _ => Except.error ⟨true, "syntax error at x"⟩)
     "CREATE EXTENSION x" [] ⟨true, "syntax error at x"⟩ (by decide) (by decide) rfl,
   c8_script_runner_amended.2.1 (fun _ => Except.error ⟨true, "syntax error at x"⟩)
     "-- comment" [] (Or.inr (by decide))⟩

theorem chunks_nil (n : Nat) : chunks n ([] : List α) = [] := by
  unfold chunks
  split <;> rfl

theorem chunks_cons (n : Nat) (hn : n ≠ 0) (x : α) (xs : List α) :
    chunks n (x :: xs) = (x :: xs).take n :: chunks n ((x :: xs).drop n) := by
  conv_lhs => unfold chunks
  rw [dif_neg hn]

theorem chunks_flatten (n : Nat) (hn : 0 < n) (l : List α) :
    (chunks n l).flatten = l := by
  have key : ∀ (k : Nat) (l : List α), l.length ≤ k → (chunks n l).flatten = l := by
    intro k
    induction k with
    | zero =>
      intro l hl
      cases l with
      | nil => rw [chunks_nil]; rfl
      | cons x xs => simp at hl
    | succ k ih =>
      intro l hl
      cases l with
      | nil => rw [chunks_nil]; rfl
      | cons x xs =>
        rw [chunks_cons n (Nat.pos_iff_ne_zero.mp hn) x xs, List.flatten_cons,
          ih ((x :: xs).drop n)
            (by simp only [List.length_drop, List.length_cons] at hl ⊢; omega)]
        exact List.take_append_drop n (x :: xs)
  exact key l.length l (le_refl _)

theorem chunks_length_le (n : Nat) (hn : 0 < n) (l : List α) :
    ∀ c ∈ chunks n l, c.length ≤ n := by
  have key : ∀ (k : Nat) (l : List α), l.length ≤ k → ∀ c ∈ chunks n l, c.length ≤ n := by
    intro k
    induction k with
    | zero =>
      intro l hl c hc
      cases l with
      | nil => rw [chunks_nil] at hc; simp at hc
      | cons x xs => simp at hl
    | succ k ih =>
      intro l hl c hc
      cases l with
      | nil => rw [chunks_nil] at hc; simp at hc
      | cons x xs =>
        rw [chunks_cons n (Nat.pos_iff_ne_zero.mp hn) x xs] at hc
        rcases List.mem_cons.mp hc with h | h
        · subst h
          simp only [List.length_take]
          exact Nat.min_le_left _ _
        · exact ih _
            (by simp only [List.length_drop, List.length_cons] at hl ⊢; omega) c h
  exact key l.length l (le_refl _)

theorem dump_chunked_map_rows (outname : String) (keys : List String) :
    ∀ (cs : List (List (List (String × String)))) (i : Nat),
      (dump_chunked outname keys i cs).map (fun f => f.rows) =
        cs.map (fun c => c.map (fun row => keys.map (fun k => (row.lookup k).getD ""))) := by
  intro cs
  induction cs with
  | nil => intro i; rfl
  | cons c rest ih =>
    intro i
    simp only [dump_chunked, List.map_cons]
    rw [ih (i + 1)]
    rfl

theorem dump_chunked_mem (outname : String) (keys : List String) :
    ∀ (cs : List (List (List (String × String)))) (i : Nat) (f : CsvFile),
      f ∈ dump_chunked outname keys i cs →
      ∃ c ∈ cs, f.header = keys ∧
        f.rows = c.map (fun row => keys.map (fun k => (row.lookup k).getD "")) := by
  intro cs
  induction cs with
  | nil => intro i f hf; simp [dump_chunked] at hf
  | cons c rest ih =>
    intro i f hf
    simp only [dump_chunked] at hf
    rcases List.mem_cons.mp hf with h | h
    · subst h
      exact ⟨c, List.mem_cons_self _ _, rfl, rfl⟩
    · obtain ⟨c', hc', h1, h2⟩ := ih (i + 1) f h
      exact ⟨c', List.mem_cons_of_mem _ hc', h1, h2⟩

theorem dump_chunked_filename (outname : String) (keys : List String) :
    ∀ (cs : List (List (List (String × String)))) (i j : Nat) (f : CsvFile),
      (dump_chunked outname keys i cs).get? j = some f →
      f.filename = outname ++ "-" ++ toString (i + j) ++ ".csv" := by
  intro cs
  induction cs with
  | nil => intro i j f hf; simp [dump_chunked] at hf
  | cons c rest ih =>
    intro i j f hf
    cases j with
    | zero =>
      simp only [dump_chunked, List.get?_cons_zero, Option.some_inj] at hf
      subst hf
      rfl
    | succ j =>
      simp only [dump_chunked, List.get?_cons_succ] at hf
      have h := ih (i + 1) j f hf
      rw [h]
      have : i + 1 + j = i + (j + 1) := by omega
      rw [this]

/-- C9: the export tool as intended by src/dump_unprocessed.py (whose line
29 is a syntax error in the sources — the `elif` lacks its colon): with a
per-file row limit k > 0 configured, the result rows are split into
consecutive chunks of at most k rows written to files named
<template>-1.csv, <template>-2.csv, ..., each beginning with the header row
of the declared key set for the scraper mb_type, and concatenating the
files restores exactly the rows of the single-file export. -/
theorem c9_dump_chunked_export (s : DB) (scraper : ScraperRow) (outname : String)
    (k : Nat) (hk : 0 < k)
    (hmb : scraper.mb_type = "recording" ∨ scraper.mb_type = "release_group") :
    ∃ files single,
      dump_main s scraper outname (some k) = some files ∧
      dump_main s scraper outname none = some [single] ∧
      single.filename = outname ++ ".csv" ∧
      single.header = (if scraper.mb_type = "recording" then
          ["mbid", "name", "artist_credit"]
        else ["mbid", "name", "artist_credit", "first_release_date"]) ∧
      (files.map (fun f => f.rows)).flatten = single.rows ∧
      (∀ f ∈ files, f.header = single.header ∧ f.rows.length ≤ k) ∧
      (∀ j f, files.get? j = some f →
        f.filename = outname ++ "-" ++ toString (j + 1) ++ ".csv") := by
  have hk0 : (k == 0) = false := by simp [Nat.pos_iff_ne_zero.mp hk]
  rcases hmb with hmb | hmb
  · refine ⟨dump_chunked outname ["mbid", "name", "artist_credit"] 1
      (chunks k ((get_unprocessed_recordings_for_scraper s scraper none).map recordingRowDict)),
      dump_items (outname ++ ".csv")
        ((get_unprocessed_recordings_for_scraper s scraper none).map recordingRowDict)
        ["mbid", "name", "artist_credit"], ?_, ?_, rfl, ?_, ?_, ?_, ?_⟩
    · unfold dump_main
      rw [if_pos (by simp [hmb])]
      dsimp only
      rw [hk0]
      rfl
    · unfold dump_main
      rw [if_pos (by simp [hmb])]
    · rw [if_pos hmb]
      rfl
    · rw [dump_chunked_map_rows, ← List.map_flatten, chunks_flatten k hk]
      rfl
    · intro f hf
      obtain ⟨c, hc, hh, hr⟩ := dump_chunked_mem _ _ _ _ f hf
      refine ⟨hh, ?_⟩
      rw [hr, List.length_map]
      exact chunks_length_le k hk _ c hc
    · intro j f hf
      have h := dump_chunked_filename _ _ _ _ _ _ hf
      rw [h]
      have : 1 + j = j + 1 := by omega
      rw [this]
  · refine ⟨dump_chunked outname ["mbid", "name", "artist_credit", "first_release_date"] 1
      (chunks k ((get_unprocessed_release_groups_for_scraper s scraper none).map
        releaseGroupRowDict)),
      dump_items (outname ++ ".csv")
        ((get_unprocessed_release_groups_for_scraper s scraper none).map releaseGroupRowDict)
        ["mbid", "name", "artist_credit", "first_release_date"], ?_, ?_, rfl, ?_, ?_, ?_, ?_⟩
    · unfold dump_main
      rw [if_neg (by simp [hmb]), if_pos (by simp [hmb])]
      dsimp only
      rw [hk0]
      rfl
    · unfold dump_main
      rw [if_neg (by simp [hmb]), if_pos (by simp [hmb])]
    · rw [if_neg (by simp [hmb])]
      rfl
    · rw [dump_chunked_map_rows, ← List.map_flatten, chunks_flatten k hk]
      rfl
    · intro f hf
      obtain ⟨c, hc, hh, hr⟩ := dump_chunked_mem _ _ _ _ f hf
      refine ⟨hh, ?_⟩
      rw [hr, List.length_map]
      exact chunks_length_le k hk _ c hc
    · intro j f hf
      have h := dump_chunked_filename _ _ _ _ _ _ hf
      rw [h]
      have : 1 + j = j + 1 := by omega
      rw [this]

/-- Witness for C9: a per-file limit of 2 on a recording scraper, with the
hypotheses discharged at concrete values. -/
theorem c9_dump_chunked_export_witness :
    (0 : Nat) < 2 ∧
    ((⟨0, 0, "mod", "recording", 1, "d"⟩ : ScraperRow).mb_type = "recording" ∨
      (⟨0, 0, "mod", "recording", 1, "d"⟩ : ScraperRow).mb_type = "release_group") ∧
    ∃ files single,
      dump_main DB.empty ⟨0, 0, "mod", "recording", 1, "d"⟩ "out" (some 2) = some files ∧
      dump_main DB.empty ⟨0, 0, "mod", "recording", 1, "d"⟩ "out" none = some [single] ∧
      single.filename = "out" ++ ".csv" ∧
      single.header = (if (⟨0, 0, "mod", "recording", 1, "d"⟩ : ScraperRow).mb_type =
          "recording" then ["mbid", "name", "artist_credit"]
        else ["mbid", "name", "artist_credit", "first_release_date"]) ∧
      (files.map (fun f => f.rows)).flatten = single.rows ∧
      (∀ f ∈ files, f.header = single.header ∧ f.rows.length ≤ 2) ∧
      (∀ j f, files.get? j = some f →
        f.filename = "out" ++ "-" ++ toString (j + 1) ++ ".csv") :=
  ⟨by decide, Or.inl (by decide),
   c9_dump_chunked_export DB.empty ⟨0, 0, "mod", "recording", 1, "d"⟩ "out" 2
     (by decide) (Or.inl (by decide))⟩

example :
    add_recording_meta { DB.empty with recording_meta := [⟨"r1", "n", "a", 5⟩] }
      ⟨"r1", "n2", "a2", 4⟩ =
      { DB.empty with recording_meta := [⟨"r1", "n", "a", 5⟩] } := by decide

example :
    add_recording_meta { DB.empty with recording_meta := [⟨"r1", "n", "a", 5⟩] }
      ⟨"r1", "n2", "a2", 7⟩ =
      { DB.empty with recording_meta := [⟨"r1", "n2", "a2", 7⟩] } := by decide

end Metadb
